import Mathlib

/-!
Shallow embedding of the configuration-management backend
(`backend/database.py`, `backend/main.py`) and proofs of its
specification's laws: secret redaction in the export engine, API-key
validity, the single authentication-expiry retry, duplicate-key
rejection, parameterized search composition, and the USERS-table
migration behaviour.
-/

namespace SnowCfg

/-! ## Data model: rows of the store's tables -/

/-- Row of the SOLUTIONS table. -/
structure Solution where
  id : String
  name : String
  description : Option String
  deriving Repr, DecidableEq

/-- Row of the PARAMETERS table. -/
structure Param where
  id : String
  name : Option String
  key : String
  value : Option String
  description : Option String
  is_secret : Bool
  deriving Repr, DecidableEq

/-- Row of the SOLUTION_API_KEYS table.  Timestamps are modelled as
naturals (TIMESTAMP_NTZ values are totally ordered; only order matters). -/
structure ApiKeyRow where
  id : String
  solution_id : String
  key_name : String
  api_key : String
  is_active : Bool
  last_used : Option Nat
  expires_at : Option Nat
  deriving Repr, DecidableEq

/-- The relational store: one field per table used by the claims.
Association tables are lists of id pairs. -/
structure Db where
  solutions : List Solution
  parameters : List Param
  solution_parameters : List (String × String)
  tags : List (String × String)
  parameter_tags : List (String × String)
  api_keys : List ApiKeyRow
  deriving Repr, DecidableEq

/-! ## API key validation (`database.validate_solution_api_key`) -/

/-- SQL predicate `(EXPIRES_AT IS NULL OR EXPIRES_AT > CURRENT_TIMESTAMP())`. -/
def expiresOk (now : Nat) : Option Nat → Bool
  | none => true
  | some t => now < t

/-- Row shape returned by the validation SELECT:
`sak.SOLUTION_ID, sak.ID as API_KEY_ID, s.NAME as SOLUTION_NAME`. -/
structure KeyInfo where
  solution_id : String
  api_key_id : String
  solution_name : String
  deriving Repr, DecidableEq

/-- The validation SELECT: filter SOLUTION_API_KEYS on
`API_KEY = %s AND IS_ACTIVE = TRUE AND (EXPIRES_AT IS NULL OR
EXPIRES_AT > CURRENT_TIMESTAMP())`, joined with SOLUTIONS on
`sak.SOLUTION_ID = s.ID`. -/
def validateSelect (now : Nat) (token : String) (db : Db) : List KeyInfo :=
  (db.api_keys.filter fun r =>
      r.api_key == token && r.is_active && expiresOk now r.expires_at).flatMap
    fun r =>
      (db.solutions.filter fun s => s.id == r.solution_id).map
        fun s => ⟨r.solution_id, r.id, s.name⟩

/-- Errors surfaced by the store layer or the route layer. -/
inductive ApiError where
  | http (status : Nat) (detail : String)
  | store
  deriving Repr, DecidableEq

/-- `UPDATE SOLUTION_API_KEYS SET LAST_USED = CURRENT_TIMESTAMP()
WHERE API_KEY = %s`. -/
def updateLastUsed (now : Nat) (token : String) (db : Db) : Db :=
  { db with
    api_keys := db.api_keys.map fun r =>
      if r.api_key == token then { r with last_used := some now } else r }

/-- `database.validate_solution_api_key`: run the SELECT; if a row came
back, run the `LAST_USED` UPDATE (which is not wrapped in any
try/except, so a store error there propagates out of the call) and
return the first row; otherwise return `none`.  `updateFails` models the
store raising on that UPDATE statement. -/
def validate_solution_api_key (now : Nat) (token : String) (db : Db)
    (updateFails : Bool) : Except ApiError (Option KeyInfo × Db) :=
  match validateSelect now token db with
  | [] => .ok (none, db)
  | info :: _ =>
      if updateFails then .error .store
      else .ok (some info, updateLastUsed now token db)

/-! ## Referential integrity and uniqueness side conditions
(enforced by the schema: FOREIGN KEY ... ON DELETE CASCADE and the
UNIQUE constraint on API_KEY). -/

/-- Every API key row's owning solution exists. -/
def KeysRefIntact (db : Db) : Prop :=
  ∀ r ∈ db.api_keys, ∃ s ∈ db.solutions, s.id = r.solution_id

/-- API_KEY values are pairwise distinct (schema UNIQUE constraint). -/
def KeysUnique (db : Db) : Prop :=
  ∀ r ∈ db.api_keys, ∀ r' ∈ db.api_keys,
    r.api_key = r'.api_key → r = r'

/-! ## Export engine (`main.export_solution_config` and
`main.get_solution_config_by_api_key`) -/

/-- Python truthiness of an optional string (`None` and `""` are falsy). -/
def truthyOptStr : Option String → Bool
  | none => false
  | some s => s != ""

/-- Python `f"{x}"` / `str(x)` on a nullable string (`None` prints as
`"None"`). -/
def pyStr : Option String → String
  | none => "None"
  | some s => s

/-- Row shape of the operator-export parameter query: `p.*` plus the
`LISTAGG(t.NAME, ',')` aggregate `tag_names`. -/
structure PRow extends Param where
  tag_names : Option String
  deriving Repr, DecidableEq

/-- Tag names linked to a parameter, in `LISTAGG ... WITHIN GROUP
(ORDER BY t.NAME)` order. -/
def paramTagNames (db : Db) (pid : String) : List String :=
  (((db.parameter_tags.filter fun a => a.1 == pid).flatMap fun a =>
      (db.tags.filter fun t => t.1 == a.2).map fun t => t.2)).mergeSort
    fun a b => decide (a ≤ b)

/-- `LISTAGG` over a group: NULL when the group is empty. -/
def listagg : List String → Option String
  | [] => none
  | n :: ns => some (String.intercalate "," (n :: ns))

/-- The operator-export parameter query: parameters joined through
SOLUTION_PARAMETERS for one solution, with aggregated tag names,
`ORDER BY p.KEY`. -/
def exportParamRows (db : Db) (sid : String) : List PRow :=
  ((db.parameters.filter fun p =>
      db.solution_parameters.any fun a => a.1 == sid && a.2 == p.id).map
    fun p => ⟨p, listagg (paramTagNames db p.id)⟩).mergeSort
    fun a b => decide (a.key ≤ b.key)

/-- `[tag.strip() for tag in s.split(',') if tag.strip()]`. -/
def splitTags (s : String) : List String :=
  ((s.splitOn ",").map String.trim).filter fun t => t != ""

/-- One entry of the operator export's `parameters` map (the
`param_config` dict; the `_note` string added alongside the placeholder
carries no parameter data and is omitted). -/
structure ParamConfig where
  value : Option String
  description : Option String
  is_secret : Bool
  name : Option String
  tags : List String
  deriving Repr, DecidableEq

def secretPlaceholder : String := "*** HIDDEN ***"

/-- Build `param_config` for one row: copy the raw fields, split the tag
aggregate when truthy, then overwrite the value with the fixed
placeholder when `is_secret`. -/
def processParam (p : PRow) : ParamConfig :=
  let pc : ParamConfig :=
    { value := p.value, description := p.description,
      is_secret := p.is_secret, name := p.name,
      tags := if truthyOptStr p.tag_names then splitTags (pyStr p.tag_names)
              else [] }
  if pc.is_secret then { pc with value := some secretPlaceholder } else pc

/-- The `parameters` member of the structured (JSON/YAML) operator
export, as an insertion-ordered key → config map. -/
def operatorConfigParams (rows : List PRow) : List (String × ParamConfig) :=
  rows.map fun p => (p.key, processParam p)

/-- The two comment lines and blank line opening every text export. -/
def exportHeader (solutionName genTime : String) : List String :=
  ["# Configuration for " ++ solutionName,
   "# Generated on " ++ genTime, ""]

/-- Lines emitted for one parameter in the operator `env` export. -/
def envEntryLines (key : String) (pc : ParamConfig) : List String :=
  (if truthyOptStr pc.description then ["# " ++ pyStr pc.description]
   else []) ++
  (if pc.is_secret then
    ["# SECRET: " ++ key ++ "=<your_secret_value_here>"]
   else [key ++ "=" ++ pyStr pc.value]) ++
  [""]

/-- Operator/audit export, `env` format, as its list of lines. -/
def operatorEnvLines (solutionName genTime : String) (rows : List PRow) :
    List String :=
  exportHeader solutionName genTime ++
    rows.flatMap fun p => envEntryLines p.key (processParam p)

/-- Java-properties value escaping:
`str(v).replace('\\','\\\\').replace('=','\\=').replace(':','\\:')`. -/
def propEsc (s : String) : String :=
  ((s.replace "\\" "\\\\").replace "=" "\\=").replace ":" "\\:"

/-- Lines emitted for one parameter in the operator `properties`
export. -/
def propEntryLines (key : String) (pc : ParamConfig) : List String :=
  (if truthyOptStr pc.description then ["# " ++ pyStr pc.description]
   else []) ++
  (if pc.is_secret then ["# " ++ key ++ "=<your_secret_value_here>"]
   else [key ++ "=" ++ propEsc (pyStr pc.value)]) ++
  [""]

/-- Operator/audit export, `properties` format, as its list of lines. -/
def operatorPropLines (solutionName genTime : String) (rows : List PRow) :
    List String :=
  exportHeader solutionName genTime ++
    rows.flatMap fun p => propEntryLines p.key (processParam p)

/-- The public export's parameter query
(`SELECT p.KEY, p.VALUE ... ORDER BY p.KEY`), yielding the flat
key → raw-value map built by the route. -/
def publicSelect (db : Db) (sid : String) : List (String × Option String) :=
  ((db.parameters.filter fun p =>
      db.solution_parameters.any fun a => a.1 == sid && a.2 == p.id).map
    fun p => (p.key, p.value)).mergeSort
    fun a b => decide (a.1 ≤ b.1)

/-- `main.get_solution_config_by_api_key`: validate the key (401 when
invalid), look up the solution (404 when missing), and return the flat
key → value configuration with all values, secrets included, raw. -/
def get_solution_config_by_api_key (now : Nat) (api_key : String) (db : Db)
    (updateFails : Bool) :
    Except ApiError (List (String × Option String) × Db) :=
  match validate_solution_api_key now api_key db updateFails with
  | .error e => .error e
  | .ok (none, _) => .error (.http 401 "Invalid or expired API key")
  | .ok (some info, db') =>
      match db'.solutions.filter fun s => s.id == info.solution_id with
      | [] => .error (.http 404 "Solution not found")
      | _ :: _ => .ok (publicSelect db' info.solution_id, db')

/-! ## Store session retry (`database.execute_query`) -/

/-- `sub` occurs somewhere inside `s` (Python's `sub in s`). -/
def containsSub (s sub : String) : Bool :=
  (List.range (s.data.length + 1)).any fun i => sub.data.isPrefixOf (s.data.drop i)

/-- The authentication-expiry test:
`"Authentication token has expired" in str(e) or "08001" in str(e)`. -/
def isAuthExpiredErr (msg : String) : Bool :=
  containsSub msg "Authentication token has expired" || containsSub msg "08001"

/-- Outcome of one execution attempt of the statement on the cursor. -/
inductive Attempt (α : Type) where
  | ok (rows : α)
  | raises (msg : String)
  deriving Repr, DecidableEq

/-- Observable trace of one `execute_query` call: cursor attempts made
and successful reconnects performed. -/
structure QueryTrace where
  attempts : Nat
  reconnects : Nat
  deriving Repr, DecidableEq

/-- `database.execute_query`: run the statement; on an
authentication-expiry ProgrammingError, disconnect, reconnect, and —
only if the reconnect succeeded — retry the same statement once,
propagating the retry's own error if it fails; if the reconnect failed,
re-raise the original error; any non-authentication error is re-raised
at once.  `first`/`second` give the cursor's behaviour on the two
possible attempts, `reconnectOk` the outcome of `self.connect()`. -/
def execute_query {α : Type} (first second : Attempt α) (reconnectOk : Bool) :
    Except String α × QueryTrace :=
  match first with
  | .ok rows => (.ok rows, ⟨1, 0⟩)
  | .raises msg =>
      if isAuthExpiredErr msg then
        if reconnectOk then
          match second with
          | .ok rows => (.ok rows, ⟨2, 1⟩)
          | .raises msg2 => (.error msg2, ⟨2, 1⟩)
        else (.error msg, ⟨1, 0⟩)
      else (.error msg, ⟨1, 0⟩)

/-! ## Parameter creation (`main.create_parameter`) -/

/-- Request body `models.ParameterCreate` (the optional tag list
defaults to `[]`). -/
structure ParameterCreate where
  name : Option String
  key : String
  value : Option String
  description : Option String
  is_secret : Bool
  tags : List String
  deriving Repr, DecidableEq

/-- The tag loop of `create_parameter`: for each tag name, get-or-create
the TAGS row (fresh ids drawn from `gen` at an increasing counter), then
insert the PARAMETER_TAGS association. -/
def applyTags (paramId : String) (gen : Nat → String) :
    List String → Db → Nat → Db × Nat
  | [], db, n => (db, n)
  | t :: ts, db, n =>
      match db.tags.filter fun tg => tg.2 == t with
      | (tid, _) :: _ =>
          applyTags paramId gen ts
            { db with parameter_tags := db.parameter_tags ++ [(paramId, tid)] } n
      | [] =>
          let tid := gen n
          applyTags paramId gen ts
            { db with tags := db.tags ++ [(tid, t)],
                      parameter_tags := db.parameter_tags ++ [(paramId, tid)] }
            (n + 1)

/-- `main.create_parameter`: pre-check `SELECT ID FROM PARAMETERS WHERE
KEY = %s`; when a row exists, raise HTTP 400 "Parameter key already
exists" before any INSERT; otherwise insert the row and run the tag
loop.  (The route finally re-reads and returns the hydrated parameter;
the store state is what matters here.) -/
def create_parameter (db : Db) (paramId : String) (gen : Nat → String)
    (p : ParameterCreate) : Except ApiError Db :=
  if !(db.parameters.filter fun q => q.key == p.key).isEmpty then
    .error (.http 400 "Parameter key already exists")
  else
    let db1 := { db with
      parameters := db.parameters ++
        [⟨paramId, p.name, p.key, p.value, p.description, p.is_secret⟩] }
    .ok (applyTags paramId gen p.tags db1 0).1

/-! ## Query composer (`main.search_parameters`) -/

/-- Request body `models.ParameterFilter`. -/
structure ParameterFilter where
  solution_id : Option String
  tags : Option (List String)
  key_pattern : Option String
  is_secret : Option Bool
  deriving Repr, DecidableEq

/-- A value passed to the store as a bound statement parameter. -/
inductive SqlValue where
  | s (v : String)
  | b (v : Bool)
  deriving Repr, DecidableEq

def solutionCondSql : String :=
  "p.ID IN (SELECT PARAMETER_ID FROM SOLUTION_PARAMETERS WHERE SOLUTION_ID = %s)"

def keyCondSql : String := "p.KEY ILIKE %s"

def secretCondSql : String := "p.IS_SECRET = %s"

def baseSelectSql : String :=
  "SELECT DISTINCT p.ID, p.NAME, p.KEY, p.VALUE, p.DESCRIPTION, p.IS_SECRET, p.CREATED_AT, p.UPDATED_AT FROM PARAMETERS p"

def tagJoinSql : String :=
  " JOIN PARAMETER_TAGS pt ON p.ID = pt.PARAMETER_ID JOIN TAGS t ON pt.TAG_ID = t.ID"

/-- `search_parameters`'s dynamic query builder: conditions and bound
values are appended in source order (solution membership, key pattern,
secrecy flag, then the tag OR-block with its join), and the WHERE clause
joins the conditions with AND.  Returns the composed SQL text and the
bound parameter tuple. -/
def buildSearchQuery (f : ParameterFilter) : String × List SqlValue :=
  let c1 : List String × List SqlValue :=
    if truthyOptStr f.solution_id then
      ([solutionCondSql], [SqlValue.s (pyStr f.solution_id)])
    else ([], [])
  let c2 : List String × List SqlValue :=
    if truthyOptStr f.key_pattern then
      ([keyCondSql], [SqlValue.s ("%" ++ pyStr f.key_pattern ++ "%")])
    else ([], [])
  let c3 : List String × List SqlValue :=
    match f.is_secret with
    | some b => ([secretCondSql], [SqlValue.b b])
    | none => ([], [])
  let c4 : String × List String × List SqlValue :=
    match f.tags with
    | some ts =>
        if !ts.isEmpty then
          (baseSelectSql ++ tagJoinSql,
           ["(" ++ String.intercalate " OR "
              (ts.map fun _ => "t.NAME = %s") ++ ")"],
           ts.map SqlValue.s)
        else (baseSelectSql, [], [])
    | none => (baseSelectSql, [], [])
  let conds := c1.1 ++ c2.1 ++ c3.1 ++ c4.2.1
  let sql :=
    if conds.isEmpty then c4.1
    else c4.1 ++ " WHERE " ++ String.intercalate " AND " conds
  (sql ++ " ORDER BY p.KEY", c1.2 ++ c2.2 ++ c3.2 ++ c4.2.2)

/-! ## Bulk delete (`main.bulk_parameter_operation`, `"delete"` arm) -/

def deleteParamSql : String := "DELETE FROM PARAMETERS WHERE ID = %s"

/-- The delete loop: one `DELETE FROM PARAMETERS WHERE ID = %s` per id,
in order; also returns the list of issued statements with their bound
value. -/
def bulkDeleteLoop : Db → List String → Db × List (String × String)
  | db, [] => (db, [])
  | db, i :: is =>
      let db' := { db with
        parameters := db.parameters.filter fun p => !(p.id == i) }
      let r := bulkDeleteLoop db' is
      (r.1, (deleteParamSql, i) :: r.2)

/-- The `"delete"` arm of `bulk_parameter_operation`: run the loop and
answer `f"Deleted {len(operation.parameter_ids)} parameters"`. -/
def bulk_parameter_delete (db : Db) (ids : List String) :
    Db × List (String × String) × String :=
  let r := bulkDeleteLoop db ids
  (r.1, r.2, "Deleted " ++ toString ids.length ++ " parameters")

/-! ## USERS-table migration (`database.create_tables`) -/

/-- One USERS row, restricted to the columns the backfill INSERT sets
(the remaining new-shape columns are NULL/defaults and play no role in
the migration).  Legacy rows have `none` in the new columns. -/
structure UserRow where
  id : String
  username : String
  hashed_password : Option String
  role : Option String
  is_active : Option Bool
  is_sso_user : Option Bool
  use_snowflake_auth : Option Bool
  created_at : Nat
  deriving Repr, DecidableEq

/-- A USERS table: its column list (as `DESCRIBE TABLE` reports it) and
its rows. -/
structure UsersTable where
  columns : List String
  rows : List UserRow
  deriving Repr, DecidableEq

/-- Column list of the new-shape USERS table DDL. -/
def newUsersColumns : List String :=
  ["ID", "USERNAME", "EMAIL", "FIRST_NAME", "LAST_NAME",
   "HASHED_PASSWORD", "ROLE", "IS_ACTIVE", "IS_SSO_USER", "SSO_PROVIDER",
   "SSO_USER_ID", "USE_SNOWFLAKE_AUTH", "LAST_LOGIN",
   "PASSWORD_RESET_TOKEN", "PASSWORD_RESET_EXPIRES", "CREATED_AT",
   "UPDATED_AT"]

/-- The backfill INSERT's values: preserved id/username/password/created
plus the documented defaults `'admin', True, False, False`. -/
def migratedRow (u : UserRow) : UserRow :=
  { u with role := some "admin", is_active := some true,
           is_sso_user := some false, use_snowflake_auth := some false }

/-- The backfill loop: insert preserved rows one at a time; `fails`
models the store raising on a given INSERT, which aborts the loop with
the rows inserted so far. -/
def backfillUsers (fails : UserRow → Bool) :
    List UserRow → List UserRow → List UserRow × Bool
  | acc, [] => (acc, false)
  | acc, u :: us =>
      let u' := migratedRow u
      if fails u' then (acc, true)
      else backfillUsers fails (acc ++ [u']) us

/-- The USERS-table maintenance step of `create_tables`: DESCRIBE the
table (its absence raises, landing in the `except` branch that creates
it); when a new-shape column is missing, back up the rows, drop and
recreate the table, and backfill.  The whole step sits inside
`try: ... except Exception:` whose handler runs `CREATE TABLE IF NOT
EXISTS` and returns normally, so a backfill failure is caught there (the
create is a no-op on the just-recreated table) and the caller sees
success.  Returns the final table and whether an error escaped to the
caller. -/
def usersTableMaintenance (t : Option UsersTable) (fails : UserRow → Bool) :
    UsersTable × Bool :=
  match t with
  | none => (⟨newUsersColumns, []⟩, false)
  | some tbl =>
      if !(tbl.columns.contains "LAST_LOGIN") ||
          !(tbl.columns.contains "ROLE") then
        let r := backfillUsers fails [] tbl.rows
        (⟨newUsersColumns, r.1⟩, false)
      else (tbl, false)

/-! ## API key revoke/toggle (`main.delete_solution_api_key`,
`main.toggle_solution_api_key`) -/

/-- `database.delete_solution_api_key`:
`DELETE FROM SOLUTION_API_KEYS WHERE ID = %s` (no existence check). -/
def db_delete_solution_api_key (db : Db) (api_key_id : String) : Db :=
  { db with api_keys := db.api_keys.filter fun r => !(r.id == api_key_id) }

/-- `database.toggle_solution_api_key`:
`UPDATE SOLUTION_API_KEYS SET IS_ACTIVE = %s WHERE ID = %s`. -/
def db_toggle_solution_api_key (db : Db) (api_key_id : String)
    (is_active : Bool) : Db :=
  { db with api_keys := db.api_keys.map fun r =>
      if r.id == api_key_id then { r with is_active := is_active } else r }

/-- Route `DELETE /api/solutions/.../api-keys/...`: calls the store
delete and returns the success message unconditionally — there is no
existence check on either id. -/
def route_delete_solution_api_key (db : Db)
    (solution_id api_key_id : String) : Except ApiError (Db × String) :=
  .ok (db_delete_solution_api_key db api_key_id,
       "API key deleted successfully")

/-- Route `PATCH /api/solutions/.../api-keys/.../toggle`: calls the
store update and returns the success message unconditionally. -/
def route_toggle_solution_api_key (db : Db)
    (solution_id api_key_id : String) (is_active : Bool) :
    Except ApiError (Db × String) :=
  .ok (db_toggle_solution_api_key db api_key_id is_active,
       "API key updated successfully")

/-! ## Helper lemmas -/

theorem expiresOk_iff (now : Nat) (e : Option Nat) :
    expiresOk now e = true ↔ e = none ∨ ∃ t, e = some t ∧ now < t := by
  cases e <;> simp [expiresOk]

theorem mem_validateSelect {now : Nat} {tok : String} {db : Db}
    {info : KeyInfo} :
    info ∈ validateSelect now tok db ↔
      ∃ r ∈ db.api_keys, r.api_key = tok ∧ r.is_active = true ∧
        expiresOk now r.expires_at = true ∧
        ∃ s ∈ db.solutions, s.id = r.solution_id ∧
          info = ⟨r.solution_id, r.id, s.name⟩ := by
  simp only [validateSelect, List.mem_flatMap, List.mem_filter,
    List.mem_map, Bool.and_eq_true, beq_iff_eq]
  constructor
  · rintro ⟨r, ⟨hr, ⟨htok, hact⟩, hexp⟩, s, ⟨hs, hsid⟩, hinfo⟩
    exact ⟨r, hr, htok, hact, hexp, s, hs, hsid, hinfo.symm⟩
  · rintro ⟨r, hr, htok, hact, hexp, s, hs, hsid, hinfo⟩
    exact ⟨r, ⟨hr, ⟨htok, hact⟩, hexp⟩, s, ⟨hs, hsid⟩, hinfo.symm⟩

/-! ## Claim theorems -/

/-- Claim C2: with a healthy store, `validate_solution_api_key` returns
the owning Solution's id exactly when the stored key row has
`is_active = true` and `expires_at` null or strictly in the future, and
at the exact boundary `expires_at = now` the key is invalid.  The two
side conditions are the schema's FOREIGN KEY (every key row's solution
exists) and UNIQUE constraint on API_KEY. -/
theorem validate_key_validity_law (now : Nat) (tok : String) (db : Db)
    (hri : KeysRefIntact db) (hun : KeysUnique db) :
    (∀ sid : String,
      (∃ info db', validate_solution_api_key now tok db false =
          .ok (some info, db') ∧ info.solution_id = sid) ↔
      (∃ r ∈ db.api_keys, r.api_key = tok ∧ r.solution_id = sid ∧
        r.is_active = true ∧
        (r.expires_at = none ∨ ∃ t, r.expires_at = some t ∧ now < t))) ∧
    (∀ r ∈ db.api_keys, r.api_key = tok → r.expires_at = some now →
      validate_solution_api_key now tok db false = .ok (none, db)) := by
  constructor
  · intro sid
    constructor
    · rintro ⟨info, db', hval, hsid⟩
      unfold validate_solution_api_key at hval
      rcases hsel : validateSelect now tok db with _ | ⟨info0, rest⟩
      · rw [hsel] at hval
        simp [Except.ok.injEq, Prod.mk.injEq] at hval
      · rw [hsel] at hval
        simp only [Bool.false_eq_true, if_false, Except.ok.injEq,
          Prod.mk.injEq, Option.some.injEq] at hval
        have hinfo : info = info0 := hval.1.symm
        have hmem : info0 ∈ validateSelect now tok db := by
          rw [hsel]; exact List.mem_cons_self _ _
        rcases mem_validateSelect.1 hmem with
          ⟨r, hr, htok, hact, hexp, s, _hs, _hsid, hinfoeq⟩
        refine ⟨r, hr, htok, ?_, hact, (expiresOk_iff now r.expires_at).1 hexp⟩
        rw [← hsid, hinfo, hinfoeq]
    · rintro ⟨r, hr, htok, hsid, hact, hexp⟩
      rcases hri r hr with ⟨s, hs, hsidr⟩
      have hexp' : expiresOk now r.expires_at = true :=
        (expiresOk_iff now r.expires_at).2 hexp
      have hmem : (⟨r.solution_id, r.id, s.name⟩ : KeyInfo) ∈
          validateSelect now tok db :=
        mem_validateSelect.2 ⟨r, hr, htok, hact, hexp', s, hs, hsidr, rfl⟩
      rcases hsel : validateSelect now tok db with _ | ⟨info0, rest⟩
      · rw [hsel] at hmem; exact absurd hmem (List.not_mem_nil _)
      · have hmem0 : info0 ∈ validateSelect now tok db := by
          rw [hsel]; exact List.mem_cons_self _ _
        rcases mem_validateSelect.1 hmem0 with
          ⟨r', hr', htok', _hact', _hexp', s', _hs', _hsid', hinfoeq'⟩
        have hrr : r' = r := hun r' hr' r hr (htok'.trans htok.symm)
        refine ⟨info0, updateLastUsed now tok db, ?_, ?_⟩
        · unfold validate_solution_api_key
          rw [hsel]; simp
        · rw [hinfoeq', hrr, hsid]
  · intro r hr htok hexpnow
    have hsel : validateSelect now tok db = [] := by
      rw [List.eq_nil_iff_forall_not_mem]
      intro info hmem
      rcases mem_validateSelect.1 hmem with
        ⟨r', hr', htok', _hact', hexp', _s, _hs, _hsid, _hinfoeq⟩
      have hrr : r' = r := hun r' hr' r hr (htok'.trans htok.symm)
      rw [hrr, hexpnow] at hexp'
      simp [expiresOk] at hexp'
    unfold validate_solution_api_key
    rw [hsel]

/-- A store with one solution and one active, never-expiring API key,
used to witness the validation theorems. -/
def dbOneKey : Db :=
  { solutions := [⟨"s1", "Demo", none⟩]
    parameters := []
    solution_parameters := []
    tags := []
    parameter_tags := []
    api_keys := [⟨"k1", "s1", "main", "sol_tok", true, none, none⟩] }

/-- Witness for C2 at a concrete store: the active unexpired key maps to
its solution. -/
theorem validate_key_validity_law_witness :
    KeysRefIntact dbOneKey ∧ KeysUnique dbOneKey ∧
    (∃ info db', validate_solution_api_key 5 "sol_tok" dbOneKey false =
        .ok (some info, db') ∧ info.solution_id = "s1") := by
  refine ⟨?_, ?_, ?_⟩
  · intro r hr
    exact ⟨⟨"s1", "Demo", none⟩, by simp [dbOneKey] at hr ⊢; simp [hr]⟩
  · intro r hr r' hr' _
    simp [dbOneKey] at hr hr'; rw [hr, hr']
  · exact ((validate_key_validity_law 5 "sol_tok" dbOneKey
      (by intro r hr; exact ⟨⟨"s1", "Demo", none⟩,
        by simp [dbOneKey] at hr ⊢; simp [hr]⟩)
      (by intro r hr r' hr' _; simp [dbOneKey] at hr hr'; rw [hr, hr'])).1
      "s1").2 ⟨⟨"k1", "s1", "main", "sol_tok", true, none, none⟩,
        by simp [dbOneKey], rfl, rfl, rfl, Or.inl rfl⟩

/-- Claim C5, counterexample: at a store holding a matching active,
unexpired key, a store error on the `LAST_USED` UPDATE propagates out of
`validate_solution_api_key` — the call fails instead of still returning
the owning Solution, because the UPDATE is not wrapped in any
try/except. -/
theorem validate_last_used_error_blocks :
    validateSelect 5 "sol_tok" dbOneKey ≠ [] ∧
    validate_solution_api_key 5 "sol_tok" dbOneKey true =
      .error ApiError.store := by
  exact ⟨by decide, rfl⟩

/-- Claim C5 (amended): on a match, `validate_solution_api_key` records
`last_used` through a separate UPDATE statement issued after the read
(so it is not part of the same atomic read), but an error during that
UPDATE propagates and fails the whole validation call instead of being
swallowed. -/
theorem validate_last_used_side_effect (now : Nat) (tok : String) (db : Db)
    (h : validateSelect now tok db ≠ []) :
    (∃ info, validate_solution_api_key now tok db false =
        .ok (some info, updateLastUsed now tok db)) ∧
    (∀ r ∈ (updateLastUsed now tok db).api_keys, r.api_key = tok →
        r.last_used = some now) ∧
    validate_solution_api_key now tok db true = .error .store := by
  rcases hsel : validateSelect now tok db with _ | ⟨info0, rest⟩
  · exact absurd hsel h
  refine ⟨⟨info0, ?_⟩, ?_, ?_⟩
  · unfold validate_solution_api_key; rw [hsel]; simp
  · intro r hr htok
    simp only [updateLastUsed, List.mem_map] at hr
    rcases hr with ⟨r0, _hr0, hmap⟩
    by_cases hc : r0.api_key = tok
    · rw [← hmap]; simp [hc]
    · have hbeq : (r0.api_key == tok) = false := by
        simp [hc]
      rw [← hmap] at htok
      simp [hbeq] at htok
      exact absurd htok hc
  · unfold validate_solution_api_key; rw [hsel]; simp

/-- Witness for the amended C5 at a concrete store. -/
theorem validate_last_used_side_effect_witness :
    validateSelect 5 "sol_tok" dbOneKey ≠ [] ∧
    validate_solution_api_key 5 "sol_tok" dbOneKey true =
      .error ApiError.store :=
  ⟨by decide,
   (validate_last_used_side_effect 5 "sol_tok" dbOneKey (by decide)).2.2⟩

/-- Claim C3: when the first attempt of `execute_query` raises an
authentication-expiry error and the retry after a successful reconnect
succeeds, the call returns that result once with exactly one reconnect;
a failed retry propagates the retry's error; a non-authentication error
propagates immediately with no reconnect; and no call ever makes more
than two attempts. -/
theorem execute_query_retry_law {α : Type} (msg : String) (rows : α)
    (second : Attempt α) (hauth : isAuthExpiredErr msg = true) :
    execute_query (Attempt.raises msg) (Attempt.ok rows) true =
      (.ok rows, ⟨2, 1⟩) ∧
    (∀ msg2 : String,
      execute_query (α := α) (Attempt.raises msg) (Attempt.raises msg2) true =
        (.error msg2, ⟨2, 1⟩)) ∧
    (∀ msgN : String, isAuthExpiredErr msgN = false →
      execute_query (Attempt.raises msgN) second true =
        (.error msgN, ⟨1, 0⟩)) ∧
    (∀ (f s : Attempt α) (b : Bool),
      (execute_query f s b).2.attempts ≤ 2) := by
  refine ⟨?_, ?_, ?_, ?_⟩
  · simp [execute_query, hauth]
  · intro msg2; simp [execute_query, hauth]
  · intro msgN hnot; simp [execute_query, hnot]
  · intro f s b
    rcases f with _ | m
    · simp [execute_query]
    · rcases hm : isAuthExpiredErr m <;> rcases b <;>
        rcases s with _ | m2 <;> simp [execute_query, hm]

/-- Witness for C3: the recognizable expiry message triggers exactly one
reconnect-and-retry which returns the retried rows. -/
theorem execute_query_retry_law_witness :
    isAuthExpiredErr "Authentication token has expired" = true ∧
    execute_query (Attempt.raises "Authentication token has expired")
        (Attempt.ok ([42] : List Nat)) true =
      (.ok [42], ⟨2, 1⟩) :=
  ⟨by decide,
   (execute_query_retry_law "Authentication token has expired"
      ([42] : List Nat) (Attempt.ok [42]) (by decide)).1⟩

/-- Claim C4: a parameter-creation request whose key already exists is
rejected by the pre-existence SELECT with the duplicate-key client error
(HTTP 400, "Parameter key already exists" — the spec's Conflict class,
distinct from NotFound), before any INSERT runs; the call can never
return a new store state. -/
theorem create_parameter_conflict (db : Db) (paramId : String)
    (gen : Nat → String) (p : ParameterCreate)
    (h : ∃ q ∈ db.parameters, q.key = p.key) :
    create_parameter db paramId gen p =
      .error (.http 400 "Parameter key already exists") ∧
    ∀ db', create_parameter db paramId gen p ≠ .ok db' := by
  have hne : (db.parameters.filter fun q => q.key == p.key) ≠ [] := by
    rcases h with ⟨q, hq, hk⟩
    intro hnil
    have : q ∈ db.parameters.filter fun q => q.key == p.key :=
      List.mem_filter.2 ⟨hq, by simp [hk]⟩
    rw [hnil] at this
    exact List.not_mem_nil _ this
  have hres : create_parameter db paramId gen p =
      .error (.http 400 "Parameter key already exists") := by
    unfold create_parameter
    simpa using h
  exact ⟨hres, fun db' hok => by rw [hres] at hok; exact Except.noConfusion hok⟩

/-- A store already holding a parameter with key "app_name", used to
witness the duplicate-key rejection. -/
def dbOneParam : Db :=
  { solutions := []
    parameters := [⟨"p1", none, "app_name", some "X", none, false⟩]
    solution_parameters := []
    tags := []
    parameter_tags := []
    api_keys := [] }

/-- Witness for C4: re-creating key "app_name" is rejected with the
duplicate-key error. -/
theorem create_parameter_conflict_witness :
    (∃ q ∈ dbOneParam.parameters, q.key = "app_name") ∧
    create_parameter dbOneParam "p2" (fun _ => "t0")
        ⟨none, "app_name", some "Y", none, false, []⟩ =
      .error (.http 400 "Parameter key already exists") :=
  ⟨⟨⟨"p1", none, "app_name", some "X", none, false⟩, by simp [dbOneParam],
     rfl⟩,
   (create_parameter_conflict dbOneParam "p2" (fun _ => "t0")
      ⟨none, "app_name", some "Y", none, false, []⟩
      ⟨⟨"p1", none, "app_name", some "X", none, false⟩,
       by simp [dbOneParam], rfl⟩).1⟩

/-- Claim C10: the bulk `"delete"` operation is total — it issues exactly
one DELETE statement per submitted id, reports a count equal to the
length of the id list whether or not the ids exist, and leaves exactly
the parameters whose id was not submitted; a nonexistent id is a silent
zero-row no-op, never a NotFound. -/
theorem bulk_delete_law (db : Db) (ids : List String) :
    (bulk_parameter_delete db ids).2.2 =
      "Deleted " ++ toString ids.length ++ " parameters" ∧
    (bulk_parameter_delete db ids).2.1 =
      ids.map (fun i => (deleteParamSql, i)) ∧
    (bulk_parameter_delete db ids).1 =
      { db with parameters :=
          db.parameters.filter fun p => !(ids.contains p.id) } := by
  have hloop : ∀ (ids : List String) (db : Db),
      bulkDeleteLoop db ids =
        ({ db with parameters :=
            db.parameters.filter fun p => !(ids.contains p.id) },
         ids.map fun i => (deleteParamSql, i)) := by
    intro ids
    induction ids with
    | nil => intro db; simp [bulkDeleteLoop]
    | cons i is ih =>
        intro db
        have hfil : (db.parameters.filter fun p => !(p.id == i)).filter
            (fun p => !(is.contains p.id)) =
            db.parameters.filter fun p => !((i :: is).contains p.id) := by
          simp only [List.filter_filter]
          apply List.filter_congr
          intro p _
          by_cases h1 : p.id = i <;> by_cases h2 : p.id ∈ is <;>
            simp [List.contains_cons, h1, h2]
        simp only [bulkDeleteLoop, ih, List.map_cons]
        rw [hfil]
  exact ⟨rfl, by simp [bulk_parameter_delete, hloop], by
    simp [bulk_parameter_delete, hloop]⟩

/-- A legacy USERS table lacking the ROLE and LAST_LOGIN columns, with
two preserved rows. -/
def legacyUsers : UsersTable :=
  { columns := ["ID", "USERNAME", "HASHED_PASSWORD", "CREATED_AT"]
    rows := [⟨"u1", "alice", some "h1", none, none, none, none, 1⟩,
             ⟨"u2", "bob", some "h2", none, none, none, none, 2⟩] }

/-- The backfill INSERT of the second preserved row raises. -/
def failsOnU2 : UserRow → Bool := fun u => u.id == "u2"

/-- Claim C6 evaluated at the failing input: the legacy table needs
migration, the INSERT of row "u2" raises during backfill, yet
`create_tables` reports no error to the caller (the exception is caught
by the `except` branch meant for the missing-table case, whose
`CREATE TABLE IF NOT EXISTS` is a no-op) — the table ends up with only
one of the two preserved rows and the failure is silently swallowed
instead of being surfaced. -/
theorem users_migration_swallows_backfill_failure :
    (!(legacyUsers.columns.contains "LAST_LOGIN") ||
      !(legacyUsers.columns.contains "ROLE")) = true ∧
    legacyUsers.rows.length = 2 ∧
    usersTableMaintenance (some legacyUsers) failsOnU2 =
      (⟨newUsersColumns,
        [⟨"u1", "alice", some "h1", some "admin", some true, some false,
          some false, 1⟩]⟩, false) := by
  refine ⟨by decide, by decide, by decide⟩

/-- Claim C8, counterexample: deleting or toggling an API key id absent
from the store returns the ordinary success response (a zero-row
statement), not a NotFound error — silent success, refuting the claim. -/
theorem missing_api_key_silent_success :
    (∀ r ∈ dbOneKey.api_keys, r.id ≠ "missing") ∧
    route_delete_solution_api_key dbOneKey "s1" "missing" =
      .ok (dbOneKey, "API key deleted successfully") ∧
    route_toggle_solution_api_key dbOneKey "s1" "missing" false =
      .ok (dbOneKey, "API key updated successfully") := by
  refine ⟨by decide, ?_, ?_⟩
  · simp [route_delete_solution_api_key, db_delete_solution_api_key,
      dbOneKey]
  · simp [route_toggle_solution_api_key, db_toggle_solution_api_key,
      dbOneKey]

/-- Claim C8 (amended): revoking or toggling a SolutionAPIKey whose id
does not exist never crashes, but it is a silent no-op — the zero-row
DELETE/UPDATE leaves the store unchanged and the route returns the
normal success message instead of a NotFound client error. -/
theorem missing_api_key_noop (db : Db) (sid kid : String) (act : Bool)
    (h : ∀ r ∈ db.api_keys, r.id ≠ kid) :
    route_delete_solution_api_key db sid kid =
      .ok (db, "API key deleted successfully") ∧
    route_toggle_solution_api_key db sid kid act =
      .ok (db, "API key updated successfully") := by
  constructor
  · unfold route_delete_solution_api_key db_delete_solution_api_key
    have : db.api_keys.filter (fun r => !(r.id == kid)) = db.api_keys := by
      apply List.filter_eq_self.2
      intro r hr
      simp [h r hr]
    rw [this]
  · unfold route_toggle_solution_api_key db_toggle_solution_api_key
    have h2 : ∀ r ∈ db.api_keys,
        (if r.id == kid then { r with is_active := act } else r) = id r := by
      intro r hr
      simp [h r hr]
    rw [List.map_congr_left h2, List.map_id]

/-- Witness for the amended C8 at a concrete store. -/
theorem missing_api_key_noop_witness :
    (∀ r ∈ dbOneKey.api_keys, r.id ≠ "nope") ∧
    route_delete_solution_api_key dbOneKey "s1" "nope" =
      .ok (dbOneKey, "API key deleted successfully") :=
  ⟨by decide,
   (missing_api_key_noop dbOneKey "s1" "nope" true (by decide)).1⟩

/-- The OR-block generated for a tag list of length `n`. -/
def orChainSql (n : Nat) : String :=
  "(" ++ String.intercalate " OR " (List.replicate n "t.NAME = %s") ++ ")"

/-- Number of tag names carried by a filter (`None` counts as zero). -/
def tagsCount (f : ParameterFilter) : Nat :=
  match f.tags with
  | some ts => ts.length
  | none => 0

/-- The SQL text of a composed search query, as a function of which
predicates are enabled and how many tag names there are — and of nothing
else. -/
def searchSqlShape (b1 b2 b3 : Bool) (n : Nat) : String :=
  let conds :=
    (if b1 then [solutionCondSql] else []) ++
    (if b2 then [keyCondSql] else []) ++
    (if b3 then [secretCondSql] else []) ++
    (if n != 0 then [orChainSql n] else [])
  let base := if n != 0 then baseSelectSql ++ tagJoinSql else baseSelectSql
  (if conds.isEmpty then base
   else base ++ " WHERE " ++ String.intercalate " AND " conds) ++
  " ORDER BY p.KEY"

/-- The composed SQL text depends only on which predicates are enabled
and the tag-name count. -/
theorem buildSearchQuery_fst (f : ParameterFilter) :
    (buildSearchQuery f).1 =
      searchSqlShape (truthyOptStr f.solution_id)
        (truthyOptStr f.key_pattern) f.is_secret.isSome (tagsCount f) := by
  rcases f with ⟨sol, tags, pat, sec⟩
  unfold buildSearchQuery searchSqlShape tagsCount
  cases hsol : truthyOptStr sol <;>
  cases hkey : truthyOptStr pat <;>
  rcases sec with _ | b <;>
  rcases tags with _ | ⟨t, ts⟩ <;>
    simp [hsol, hkey, List.map_const', orChainSql, List.replicate_succ]

/-- Claim C7: for any two filters that enable the same predicates
(solution membership, key substring, secrecy flag) and carry the same
number of tag names, the composed search SQL text is identical — the
predicate values appear only in the bound-parameter list, never in the
SQL text. -/
theorem search_sql_value_independent (f g : ParameterFilter)
    (hsol : truthyOptStr f.solution_id = truthyOptStr g.solution_id)
    (hpat : truthyOptStr f.key_pattern = truthyOptStr g.key_pattern)
    (hsec : f.is_secret.isSome = g.is_secret.isSome)
    (htag : tagsCount f = tagsCount g) :
    (buildSearchQuery f).1 = (buildSearchQuery g).1 := by
  rw [buildSearchQuery_fst, buildSearchQuery_fst, hsol, hpat, hsec, htag]

/-- Witness for C7: two filters with entirely different predicate values
(and equal shape) compose to the same SQL text. -/
theorem search_sql_value_independent_witness :
    (truthyOptStr (some "sol-A") = truthyOptStr (some "other-sol") ∧
      tagsCount ⟨some "sol-A", some ["prod", "eu"], some "db", some true⟩ =
        tagsCount ⟨some "other-sol", some ["x", "y"], some "pass",
          some false⟩) ∧
    (buildSearchQuery
        ⟨some "sol-A", some ["prod", "eu"], some "db", some true⟩).1 =
      (buildSearchQuery
        ⟨some "other-sol", some ["x", "y"], some "pass", some false⟩).1 :=
  ⟨⟨rfl, rfl⟩,
   search_sql_value_independent
     ⟨some "sol-A", some ["prod", "eu"], some "db", some true⟩
     ⟨some "other-sol", some ["x", "y"], some "pass", some false⟩
     rfl rfl rfl rfl⟩

/-- Replace the value of every secret row by an arbitrary function of
the row; non-secret rows are untouched.  Two stores that differ only in
secret values are related by some such replacement. -/
def scrubRows (f : PRow → Option String) (rows : List PRow) : List PRow :=
  rows.map fun p => if p.is_secret then { p with value := f p } else p

theorem processParam_scrub (f : PRow → Option String) (p : PRow) :
    processParam (if p.is_secret then { p with value := f p } else p) =
      processParam p := by
  cases hs : p.is_secret <;> simp [processParam, hs]

/-- Claim C1: redaction law.  (a) every secret parameter's value is
rendered as the fixed placeholder in the structured operator export;
(b) all operator/audit export formats (structured map, env lines,
properties lines) are unchanged under arbitrary replacement of secret
values, so no secret's raw value can occur in them; (c) whenever the
presented API key validates, the public export succeeds and its flat
configuration contains every assigned parameter's key with its raw
value, secrets included. -/
theorem redaction_law (now : Nat) (tok : String) (db : Db)
    (solutionName genTime : String) (f : PRow → Option String)
    (rows : List PRow) :
    (∀ p : PRow, p.is_secret = true →
      (processParam p).value = some secretPlaceholder) ∧
    (operatorConfigParams (scrubRows f rows) = operatorConfigParams rows ∧
     operatorEnvLines solutionName genTime (scrubRows f rows) =
       operatorEnvLines solutionName genTime rows ∧
     operatorPropLines solutionName genTime (scrubRows f rows) =
       operatorPropLines solutionName genTime rows) ∧
    (∀ info db',
      validate_solution_api_key now tok db false = .ok (some info, db') →
      get_solution_config_by_api_key now tok db false =
        .ok (publicSelect db' info.solution_id, db') ∧
      ∀ p ∈ db.parameters,
        (db.solution_parameters.any fun a =>
          a.1 == info.solution_id && a.2 == p.id) = true →
        (p.key, p.value) ∈ publicSelect db' info.solution_id) := by
  refine ⟨?_, ⟨?_, ?_, ?_⟩, ?_⟩
  · intro p hs
    simp [processParam, hs]
  · simp only [operatorConfigParams, scrubRows, List.map_map]
    apply List.map_congr_left
    intro p _
    have hkey : (if p.is_secret then { p with value := f p } else p).key =
        p.key := by
      cases hs : p.is_secret <;> simp
    simp [Function.comp, processParam_scrub, hkey]
  · simp only [operatorEnvLines, scrubRows, List.flatMap_map]
    congr 1
    apply List.flatMap_congr
    intro p _
    have hkey : (if p.is_secret then { p with value := f p } else p).key =
        p.key := by
      cases hs : p.is_secret <;> simp
    rw [processParam_scrub, hkey]
  · simp only [operatorPropLines, scrubRows, List.flatMap_map]
    congr 1
    apply List.flatMap_congr
    intro p _
    have hkey : (if p.is_secret then { p with value := f p } else p).key =
        p.key := by
      cases hs : p.is_secret <;> simp
    rw [processParam_scrub, hkey]
  · intro info db' hval
    unfold validate_solution_api_key at hval
    rcases hsel : validateSelect now tok db with _ | ⟨i0, rest⟩
    · rw [hsel] at hval
      simp [Except.ok.injEq, Prod.mk.injEq] at hval
    rw [hsel] at hval
    simp only [Bool.false_eq_true, if_false, Except.ok.injEq,
      Prod.mk.injEq, Option.some.injEq] at hval
    obtain ⟨hinfo, hdb'⟩ := hval
    have hmem : i0 ∈ validateSelect now tok db := by
      rw [hsel]; exact List.mem_cons_self _ _
    rcases mem_validateSelect.1 hmem with
      ⟨r, _hr, _htok, _hact, _hexp, s, hs, hsid, hinfoeq⟩
    have hsols : db'.solutions = db.solutions := by
      rw [← hdb']; rfl
    have hpars : db'.parameters = db.parameters := by
      rw [← hdb']; rfl
    have hsmem : s ∈ db'.solutions.filter
        fun x => x.id == info.solution_id := by
      rw [hsols]
      refine List.mem_filter.2 ⟨hs, ?_⟩
      rw [← hinfo, hinfoeq]
      simp [hsid]
    have hroute : get_solution_config_by_api_key now tok db false =
        .ok (publicSelect db' info.solution_id, db') := by
      unfold get_solution_config_by_api_key
      unfold validate_solution_api_key
      rw [hsel]
      simp only [Bool.false_eq_true, if_false]
      rw [hinfo, hdb']
      rcases hfil : db'.solutions.filter
          fun x => x.id == info.solution_id with _ | ⟨s0, srest⟩
      · rw [hfil] at hsmem
        exact absurd hsmem (List.not_mem_nil _)
      · rw [hfil]
    refine ⟨hroute, ?_⟩
    intro p hp hassigned
    unfold publicSelect
    rw [List.mem_mergeSort]
    refine List.mem_map.2 ⟨p, List.mem_filter.2 ⟨?_, ?_⟩, rfl⟩
    · rw [hpars]; exact hp
    · have hsps : db'.solution_parameters = db.solution_parameters := by
        rw [← hdb']; rfl
      rw [hsps]
      exact hassigned

/-- A store with one solution owning one secret parameter and one
active API key, used to witness the redaction law. -/
def dbSecret : Db :=
  { solutions := [⟨"s1", "Demo", none⟩]
    parameters := [⟨"p1", none, "secret_key", some "shh", none, true⟩]
    solution_parameters := [("s1", "p1")]
    tags := []
    parameter_tags := []
    api_keys := [⟨"k1", "s1", "main", "sol_tok2", true, none, none⟩] }

/-- Witness for C1: with the valid key presented, the public export's
flat configuration carries the secret parameter's raw value. -/
theorem redaction_law_witness :
    validate_solution_api_key 5 "sol_tok2" dbSecret false =
      .ok (some ⟨"s1", "k1", "Demo"⟩, updateLastUsed 5 "sol_tok2" dbSecret) ∧
    ("secret_key", some "shh") ∈
      publicSelect (updateLastUsed 5 "sol_tok2" dbSecret) "s1" := by
  have h : validate_solution_api_key 5 "sol_tok2" dbSecret false =
      .ok (some ⟨"s1", "k1", "Demo"⟩,
        updateLastUsed 5 "sol_tok2" dbSecret) := rfl
  refine ⟨h, ?_⟩
  exact ((redaction_law 5 "sol_tok2" dbSecret "Demo" "T" (fun _ => none)
      []).2.2 ⟨"s1", "k1", "Demo"⟩ (updateLastUsed 5 "sol_tok2" dbSecret)
      h).2 ⟨"p1", none, "secret_key", some "shh", none, true⟩ (by decide)
      (by decide)

/-! ## Env/properties line analysis (claim C9) -/

/-- A line is commented when its first character is `#`. -/
def isCommentLine (line : String) : Bool :=
  line.data.head? == some '#'

/-- `line` is an assignment of variable `sk`: it begins with `sk=`. -/
def hasKeyEq (sk line : String) : Bool :=
  (sk ++ "=").data.isPrefixOf line.data

/-- The operator `env` export's document content:
`content = "\n".join(lines)`. -/
def envExportContent (solutionName genTime : String)
    (rows : List PRow) : String :=
  String.intercalate "\n" (operatorEnvLines solutionName genTime rows)

/-- The operator `properties` export's document content:
`content = "\n".join(lines)`. -/
def propExportContent (solutionName genTime : String)
    (rows : List PRow) : String :=
  String.intercalate "\n" (operatorPropLines solutionName genTime rows)

/-- Split a character list at every occurrence of `c` (the semantics of
`content.split(c)`). -/
def splitOnChar (c : Char) : List Char → List (List Char)
  | [] => [[]]
  | d :: ds =>
      match splitOnChar c ds with
      | [] => [[]]
      | h :: t => if d == c then [] :: h :: t else (d :: h) :: t

/-- The physical lines of a rendered document: its content split at
every newline character.  A consumer loading the export reads these
lines, not the pre-join list entries. -/
def docLines (content : String) : List String :=
  (splitOnChar '\n' content.data).map fun l => ⟨l⟩

/-- Export rows defeating the redaction of secret key "S" in three
ways at once: a non-secret value that embeds a newline followed by
`S=evil`, a non-secret key containing `=` whose line begins with `S=`,
and (thereby) uncommented lines mentioning "S". -/
def rowsInject : List PRow :=
  [⟨⟨"p1", none, "S", some "shh", none, true⟩, none⟩,
   ⟨⟨"p2", none, "B", some "1\nS=evil", none, false⟩, none⟩,
   ⟨⟨"p3", none, "S=x", some "v", none, false⟩, none⟩]

/-- Claim C9, counterexample at document level: with secret key "S",
the env export document of `rowsInject` contains the uncommented
physical line "S=evil" (injected through the newline inside the
non-secret value "1\nS=evil") and the uncommented line "S=x=v" (from
the non-secret key "S=x") — both assignment lines of the form
`S=value` — and both lines mention "S" without beginning with '#'. -/
theorem env_document_uncommented_secret_assignment :
    (rowsInject.any fun p => p.is_secret && p.key == "S") = true ∧
    "S=evil" ∈ docLines (envExportContent "Demo" "T" rowsInject) ∧
    hasKeyEq "S" "S=evil" = true ∧
    isCommentLine "S=evil" = false ∧
    containsSub "S=evil" "S" = true ∧
    "S=x=v" ∈ docLines (envExportContent "Demo" "T" rowsInject) ∧
    hasKeyEq "S" "S=x=v" = true ∧
    isCommentLine "S=x=v" = false := by
  refine ⟨by decide, by decide, by decide, by decide, by decide,
    by decide, by decide, by decide⟩

theorem eqFree_append_cancel :
    ∀ a b x y : List Char, ('=' : Char) ∉ a → ('=' : Char) ∉ b →
      a ++ '=' :: x = b ++ '=' :: y → a = b := by
  intro a
  induction a with
  | nil =>
      intro b x y _ hb h
      cases b with
      | nil => rfl
      | cons d ds =>
          simp only [List.nil_append, List.cons_append, List.cons.injEq]
            at h
          cases h.1
          exact absurd (List.mem_cons_self _ _) hb
  | cons c cs ih =>
      intro b x y ha hb h
      cases b with
      | nil =>
          simp only [List.cons_append, List.nil_append, List.cons.injEq]
            at h
          rw [h.1] at ha
          exact absurd (List.mem_cons_self _ _) ha
      | cons d ds =>
          simp only [List.cons_append, List.cons.injEq] at h
          have ha' : ('=' : Char) ∉ cs :=
            fun hm => ha (List.mem_cons_of_mem _ hm)
          have hb' : ('=' : Char) ∉ ds :=
            fun hm => hb (List.mem_cons_of_mem _ hm)
          rw [h.1, ih ds x y ha' hb' h.2]

/-- If neither key contains `=`, an assignment line for key `k` can only
begin with `sk=` when `k = sk`. -/
theorem hasKeyEq_assignment {sk k v : String}
    (hsk : ('=' : Char) ∉ sk.data) (hk : ('=' : Char) ∉ k.data)
    (h : hasKeyEq sk (k ++ "=" ++ v) = true) : k = sk := by
  unfold hasKeyEq at h
  have hpre := List.isPrefixOf_iff_prefix.1 h
  rcases hpre with ⟨t, ht⟩
  simp only [String.data_append] at ht
  have ht' : sk.data ++ '=' :: t = k.data ++ '=' :: v.data := by
    simpa [List.append_assoc] using ht
  exact String.ext (eqFree_append_cancel k.data sk.data v.data t hk hsk
    ht'.symm)

theorem isCommentLine_append (t s : String) (h : isCommentLine t = true) :
    isCommentLine (t ++ s) = true := by
  unfold isCommentLine at h ⊢
  rw [String.data_append]
  cases ht : t.data with
  | nil => rw [ht] at h; simp at h
  | cons c cr => rw [ht] at h; simpa using h

theorem hasKeyEq_empty (sk : String) : hasKeyEq sk "" = false := by
  unfold hasKeyEq
  have : ("" : String).data = [] := rfl
  rw [String.data_append, this]
  cases sk.data <;> rfl

theorem processParam_is_secret (p : PRow) :
    (processParam p).is_secret = p.is_secret := by
  cases hs : p.is_secret <;> simp [processParam, hs]

theorem processParam_description (p : PRow) :
    (processParam p).description = p.description := by
  cases hs : p.is_secret <;> simp [processParam, hs]

theorem envEntryLines_ok (sk : String) (hsk : ('=' : Char) ∉ sk.data)
    (p : PRow) (hk : ('=' : Char) ∉ p.key.data)
    (hsec : p.key = sk → p.is_secret = true) :
    ∀ line ∈ envEntryLines p.key (processParam p),
      (!(hasKeyEq sk line) || isCommentLine line) = true := by
  intro line hline
  unfold envEntryLines at hline
  rcases List.mem_append.1 hline with hl | hl3
  case inr =>
    simp only [List.mem_singleton] at hl3
    subst hl3
    rw [hasKeyEq_empty]
    simp
  rcases List.mem_append.1 hl with hl1 | hl2
  · cases hd : truthyOptStr (processParam p).description with
    | false => rw [hd] at hl1; simp at hl1
    | true =>
        rw [hd] at hl1
        simp only [if_true, List.mem_singleton] at hl1
        subst hl1
        rw [isCommentLine_append "# " _ (by decide)]
        simp
  · cases hs : (processParam p).is_secret with
      | true =>
          rw [hs] at hl2
          simp only [if_true, List.mem_singleton] at hl2
          subst hl2
          rw [isCommentLine_append ("# SECRET: " ++ p.key) _
            (isCommentLine_append "# SECRET: " _ (by decide))]
          simp
      | false =>
          rw [hs] at hl2
          simp only [Bool.false_eq_true, if_false, List.mem_singleton]
            at hl2
          subst hl2
          cases hkq : hasKeyEq sk (p.key ++ "=" ++
              pyStr (processParam p).value) with
          | false => simp [hkq]
          | true =>
              have hks : p.key = sk := hasKeyEq_assignment hsk hk hkq
              have hsecq : p.is_secret = true := hsec hks
              rw [processParam_is_secret, hsecq] at hs
              simp at hs

theorem propEntryLines_ok (sk : String) (hsk : ('=' : Char) ∉ sk.data)
    (p : PRow) (hk : ('=' : Char) ∉ p.key.data)
    (hsec : p.key = sk → p.is_secret = true) :
    ∀ line ∈ propEntryLines p.key (processParam p),
      (!(hasKeyEq sk line) || isCommentLine line) = true := by
  intro line hline
  unfold propEntryLines at hline
  rcases List.mem_append.1 hline with hl | hl3
  case inr =>
    simp only [List.mem_singleton] at hl3
    subst hl3
    rw [hasKeyEq_empty]
    simp
  rcases List.mem_append.1 hl with hl1 | hl2
  · cases hd : truthyOptStr (processParam p).description with
    | false => rw [hd] at hl1; simp at hl1
    | true =>
        rw [hd] at hl1
        simp only [if_true, List.mem_singleton] at hl1
        subst hl1
        rw [isCommentLine_append "# " _ (by decide)]
        simp
  · cases hs : (processParam p).is_secret with
      | true =>
          rw [hs] at hl2
          simp only [if_true, List.mem_singleton] at hl2
          subst hl2
          rw [isCommentLine_append ("# " ++ p.key) _
            (isCommentLine_append "# " _ (by decide))]
          simp
      | false =>
          rw [hs] at hl2
          simp only [Bool.false_eq_true, if_false, List.mem_singleton]
            at hl2
          subst hl2
          cases hkq : hasKeyEq sk (p.key ++ "=" ++
              propEsc (pyStr (processParam p).value)) with
          | false => simp [hkq]
          | true =>
              have hks : p.key = sk := hasKeyEq_assignment hsk hk hkq
              have hsecq : p.is_secret = true := hsec hks
              rw [processParam_is_secret, hsecq] at hs
              simp at hs

/-- List-level core of the redaction argument: every entry of the
operator env/properties line lists is either commented or an assignment
of a non-secret key, so no entry both begins with `secretKey=` and is
uncommented (given `=`-free keys). -/
theorem operatorLines_no_secret_assignment
    (solutionName genTime : String) (rows : List PRow) (sk : String)
    (hsk : ('=' : Char) ∉ sk.data)
    (hkeys : ∀ p ∈ rows, ('=' : Char) ∉ p.key.data)
    (hsec : ∀ p ∈ rows, p.key = sk → p.is_secret = true) :
    ((operatorEnvLines solutionName genTime rows).all fun line =>
      !(hasKeyEq sk line) || isCommentLine line) = true ∧
    ((operatorPropLines solutionName genTime rows).all fun line =>
      !(hasKeyEq sk line) || isCommentLine line) = true := by
  have hheader : ∀ line ∈ exportHeader solutionName genTime,
      (!(hasKeyEq sk line) || isCommentLine line) = true := by
    intro line hline
    simp only [exportHeader, List.mem_cons, List.mem_singleton,
      List.not_mem_nil, or_false] at hline
    rcases hline with h1 | h2 | h3
    · subst h1
      rw [isCommentLine_append "# Configuration for " _ (by decide)]
      simp
    · subst h2
      rw [isCommentLine_append "# Generated on " _ (by decide)]
      simp
    · subst h3
      rw [hasKeyEq_empty]
      simp
  constructor
  · rw [List.all_eq_true]
    intro line hline
    unfold operatorEnvLines at hline
    rcases List.mem_append.1 hline with hh | hf
    · exact hheader line hh
    · rcases List.mem_flatMap.1 hf with ⟨p, hp, hmem⟩
      exact envEntryLines_ok sk hsk p (hkeys p hp)
        (fun hkeq => hsec p hp hkeq) line hmem
  · rw [List.all_eq_true]
    intro line hline
    unfold operatorPropLines at hline
    rcases List.mem_append.1 hline with hh | hf
    · exact hheader line hh
    · rcases List.mem_flatMap.1 hf with ⟨p, hp, hmem⟩
      exact propEntryLines_ok sk hsk p (hkeys p hp)
        (fun hkeq => hsec p hp hkeq) line hmem

theorem splitOnChar_cons (c d : Char) (ds : List Char) :
    splitOnChar c (d :: ds) =
      match splitOnChar c ds with
      | [] => [[]]
      | h :: t => if d == c then [] :: h :: t else (d :: h) :: t := rfl

theorem splitOnChar_ne_nil (c : Char) (l : List Char) :
    splitOnChar c l ≠ [] := by
  cases l with
  | nil => simp [splitOnChar]
  | cons d ds =>
      rw [splitOnChar_cons]
      rcases hs : splitOnChar c ds with _ | ⟨h, t⟩
      · simp
      · dsimp only
        split <;> simp

theorem splitOnChar_no_sep (c : Char) :
    ∀ l : List Char, c ∉ l → splitOnChar c l = [l] := by
  intro l
  induction l with
  | nil => intro _; rfl
  | cons d ds ih =>
      intro h
      have hd : (d == c) = false := by
        simp only [beq_eq_false_iff_ne]
        intro he
        exact h (he ▸ List.mem_cons_self _ _)
      have hds : c ∉ ds := fun hm => h (List.mem_cons_of_mem _ hm)
      rw [splitOnChar_cons, ih hds]
      simp [hd]

theorem splitOnChar_sep_append (c : Char) :
    ∀ a rest : List Char, c ∉ a →
      splitOnChar c (a ++ c :: rest) = a :: splitOnChar c rest := by
  intro a
  induction a with
  | nil =>
      intro rest _
      show splitOnChar c (c :: rest) = [] :: splitOnChar c rest
      rw [splitOnChar_cons]
      rcases hs : splitOnChar c rest with _ | ⟨h, t⟩
      · exact absurd hs (splitOnChar_ne_nil c rest)
      · simp
  | cons d ds ih =>
      intro rest h
      have hd : (d == c) = false := by
        simp only [beq_eq_false_iff_ne]
        intro he
        exact h (he ▸ List.mem_cons_self _ _)
      have hds : c ∉ ds := fun hm => h (List.mem_cons_of_mem _ hm)
      show splitOnChar c (d :: (ds ++ c :: rest)) =
        (d :: ds) :: splitOnChar c rest
      rw [splitOnChar_cons, ih rest hds]
      simp [hd]

theorem splitOnChar_join (c : Char) :
    ∀ (as : List (List Char)) (a : List Char), c ∉ a →
      (∀ b ∈ as, c ∉ b) →
      splitOnChar c (a ++ as.flatMap fun b => c :: b) = a :: as := by
  intro as
  induction as with
  | nil =>
      intro a ha _
      simp [splitOnChar_no_sep c a ha]
  | cons b bs ih =>
      intro a ha hb
      have hshape : a ++ (b :: bs).flatMap (fun x => c :: x) =
          a ++ c :: (b ++ bs.flatMap fun x => c :: x) := by
        simp
      rw [hshape, splitOnChar_sep_append c a _ ha,
        ih b (hb b (List.mem_cons_self _ _))
          (fun x hx => hb x (List.mem_cons_of_mem _ hx))]

theorem intercalate_go_data (s : String) :
    ∀ (L : List String) (acc : String),
      (String.intercalate.go acc s L).data =
        acc.data ++ L.flatMap fun a => s.data ++ a.data := by
  intro L
  induction L with
  | nil => intro acc; simp [String.intercalate.go]
  | cons a as ih =>
      intro acc
      rw [show String.intercalate.go acc s (a :: as) =
        String.intercalate.go (acc ++ s ++ a) s as from rfl]
      rw [ih]
      simp [String.data_append]

theorem intercalate_data_cons (s l : String) (ls : List String) :
    (String.intercalate s (l :: ls)).data =
      l.data ++ ls.flatMap fun a => s.data ++ a.data := by
  show (String.intercalate.go l s ls).data = _
  rw [intercalate_go_data]

/-- Splitting the newline-joined content of newline-free entries
recovers exactly the entry list. -/
theorem docLines_intercalate (l : String) (ls : List String)
    (hl : ('\n' : Char) ∉ l.data)
    (hls : ∀ x ∈ ls, ('\n' : Char) ∉ x.data) :
    docLines (String.intercalate "\n" (l :: ls)) = l :: ls := by
  unfold docLines
  rw [intercalate_data_cons]
  have hflat : (ls.flatMap fun a => ("\n" : String).data ++ a.data) =
      (ls.map String.data).flatMap fun b => '\n' :: b := by
    rw [List.flatMap_map]
    rfl
  rw [hflat, splitOnChar_join '\n' (ls.map String.data) l.data hl ?hbs]
  case hbs =>
    intro b hb
    rcases List.mem_map.1 hb with ⟨x, hx, hxb⟩
    rw [← hxb]
    exact hls x hx
  simp only [List.map_cons, List.map_map]
  have hmk : ∀ x ∈ ls, ((fun d => (⟨d⟩ : String)) ∘ String.data) x = id x := by
    intro x _
    rfl
  rw [List.map_congr_left hmk, List.map_id]

/-- Claim C9 (amended): in the operator env and properties export
documents, provided no rendered export entry embeds a newline (so no
parameter value, description, key, nor the solution name spans multiple
physical lines) and parameter keys contain no `=`, no uncommented
physical line of the document assigns a secret parameter's key — every
document line beginning with `secretKey=` starts with `#` — so loading
the exported document defines no variable for any secret parameter.
Without those provisos the guarantee fails (a newline inside a
non-secret value, or a non-secret key containing `=`, injects an
uncommented `secretKey=...` line), and uncommented lines may still
mention the secret key inside values. -/
theorem operator_export_document_no_secret_assignment
    (solutionName genTime : String) (rows : List PRow) (sk : String)
    (hsk : ('=' : Char) ∉ sk.data)
    (hkeys : ∀ p ∈ rows, ('=' : Char) ∉ p.key.data)
    (hsec : ∀ p ∈ rows, p.key = sk → p.is_secret = true)
    (henv : ∀ line ∈ operatorEnvLines solutionName genTime rows,
      ('\n' : Char) ∉ line.data)
    (hprop : ∀ line ∈ operatorPropLines solutionName genTime rows,
      ('\n' : Char) ∉ line.data) :
    ((docLines (envExportContent solutionName genTime rows)).all
      fun line => !(hasKeyEq sk line) || isCommentLine line) = true ∧
    ((docLines (propExportContent solutionName genTime rows)).all
      fun line => !(hasKeyEq sk line) || isCommentLine line) = true := by
  obtain ⟨hEnv, hProp⟩ := operatorLines_no_secret_assignment
    solutionName genTime rows sk hsk hkeys hsec
  constructor
  · have hshape : operatorEnvLines solutionName genTime rows =
        ("# Configuration for " ++ solutionName) ::
          (("# Generated on " ++ genTime) :: "" ::
            rows.flatMap fun p => envEntryLines p.key (processParam p)) := by
      simp [operatorEnvLines, exportHeader]
    unfold envExportContent
    rw [hshape, docLines_intercalate _ _
      (by
        apply henv
        rw [hshape]
        exact List.mem_cons_self _ _)
      (by
        intro x hx
        apply henv
        rw [hshape]
        exact List.mem_cons_of_mem _ hx)]
    rw [← hshape]
    exact hEnv
  · have hshape : operatorPropLines solutionName genTime rows =
        ("# Configuration for " ++ solutionName) ::
          (("# Generated on " ++ genTime) :: "" ::
            rows.flatMap fun p => propEntryLines p.key (processParam p)) := by
      simp [operatorPropLines, exportHeader]
    unfold propExportContent
    rw [hshape, docLines_intercalate _ _
      (by
        apply hprop
        rw [hshape]
        exact List.mem_cons_self _ _)
      (by
        intro x hx
        apply hprop
        rw [hshape]
        exact List.mem_cons_of_mem _ hx)]
    rw [← hshape]
    exact hProp

/-- Export rows holding two secret parameters, used to witness the
amended C9. -/
def rowsSafe : List PRow :=
  [⟨⟨"p1", none, "SECRET_KEY", some "shh", none, true⟩, none⟩,
   ⟨⟨"p2", none, "OTHER", some "X", none, true⟩, none⟩]

/-- Witness for the amended C9 at concrete rows: all provisos hold and
every physical line of the env document is commented or assigns a
non-secret key. -/
theorem operator_export_document_no_secret_assignment_witness :
    (('=' : Char) ∉ "SECRET_KEY".data ∧
     (∀ p ∈ rowsSafe, p.key = "SECRET_KEY" → p.is_secret = true) ∧
     (∀ line ∈ operatorEnvLines "Demo" "T" rowsSafe,
       ('\n' : Char) ∉ line.data)) ∧
    ((docLines (envExportContent "Demo" "T" rowsSafe)).all
      fun line => !(hasKeyEq "SECRET_KEY" line) ||
        isCommentLine line) = true :=
  ⟨⟨by decide, by decide, by decide⟩,
   (operator_export_document_no_secret_assignment "Demo" "T" rowsSafe
      "SECRET_KEY" (by decide) (by decide) (by decide) (by decide)
      (by decide)).1⟩

end SnowCfg
